import Mathlib

/-!
# Verification of the bata-fast audio playback module

Shallow embedding of the playback module (interactive transport controller,
basic playback adapter, duration probe, degradation notices) of the
`bata-fast` repository, together with proofs of the spec's claims about it.

Numbers are modelled as `ℚ` (the JS code only performs field operations,
`Math.round`, `Math.floor`, `Math.min`/`Math.max` on finite doubles).
Wall-clock instants (`Date.now()`) are milliseconds, passed explicitly to
each action.  `null`/`undefined` values are `Option`.  Asynchronous
`await`s inside one transport action are modelled by sequencing: the
controller's busy flag serializes keypress handlers, and every `await` in
an action only waits for the kill-acknowledgement of the decode process,
which is delivered before the action continues.
-/

namespace BataFast

/-- `SEEK_SECONDS` constant of the player module. -/
def SEEK_SECONDS : ℚ := 5

/-- `VOLUME_STEP` constant of the player module. -/
def VOLUME_STEP : ℚ := 1/10

/-- `MIN_VOLUME` constant of the player module. -/
def MIN_VOLUME : ℚ := 0

/-- `MAX_VOLUME` constant of the player module. -/
def MAX_VOLUME : ℚ := 4

/-- `PROGRESS_BAR_WIDTH` constant of the player module. -/
def PROGRESS_BAR_WIDTH : Nat := 32

/-- JS `Math.round` on a finite number: round half toward positive infinity,
i.e. the floor of `x + 1/2` (via the executable `Rat.floor`). -/
def jsRound (x : ℚ) : ℤ := (x + 1/2).floor

/-- JS `Math.max` on two finite numbers. -/
def jsMax (a b : ℚ) : ℚ := if a ≤ b then b else a

/-- JS `Math.min` on two finite numbers. -/
def jsMin (a b : ℚ) : ℚ := if a ≤ b then a else b

/-- JS `Math.max` on two integers. -/
def jsMaxInt (a b : ℤ) : ℤ := if a ≤ b then b else a

/-- JS truthiness of a nullable number: `null` and `0` are falsy. -/
def jsTruthy : Option ℚ → Bool
  | none => false
  | some q => decide (q ≠ 0)

/-- `String.mk` of `n` copies of one character (JS `"c".repeat(n)`). -/
def repeatChar (c : Char) (n : Nat) : String :=
  String.mk (List.replicate n c)

/-- `String(n).padStart(2, "0")` for an integer `n`. -/
def padStart2 (n : ℤ) : String :=
  let s := toString n
  String.mk (List.replicate (2 - s.length) '0') ++ s

/-- `formatTime` from `src/lib/ui.js`: `null`/`NaN`/negative renders as
`"??:??"`, otherwise `MM:SS` of the floored number of seconds.  All
divisions/remainders are taken on a nonnegative integer, where the JS and
Lean conventions agree. -/
def formatTime (totalSeconds : Option ℚ) : String :=
  match totalSeconds with
  | none => "??:??"
  | some t =>
    if t < 0 then "??:??"
    else
      let safeSeconds : ℤ := t.floor
      let minutes : ℤ := safeSeconds / 60
      let seconds : ℤ := safeSeconds % 60
      padStart2 minutes ++ ":" ++ padStart2 seconds

/-- `buildProgressBar` from the player module.  The JS guard
`!totalSeconds || totalSeconds <= 0` is true exactly when the duration is
`null` or `≤ 0` (0 is falsy). -/
def buildProgressBar (currentSeconds : ℚ) (totalSeconds : Option ℚ) : String :=
  match totalSeconds with
  | none => repeatChar '-' PROGRESS_BAR_WIDTH
  | some t =>
    if t ≤ 0 then repeatChar '-' PROGRESS_BAR_WIDTH
    else
      let ratio := jsMin (jsMax (currentSeconds / t) 0) 1
      let filled : ℤ := jsRound (ratio * (PROGRESS_BAR_WIDTH : ℚ))
      let empty : ℤ := (PROGRESS_BAR_WIDTH : ℤ) - filled
      repeatChar '=' filled.toNat ++ repeatChar '-' (jsMaxInt empty 0).toNat

/-- The `durationSeconds ? formatTime(durationSeconds) : "??:??"` expression
used by both players to label the total time. -/
def durationLabel (durationSeconds : Option ℚ) : String :=
  if jsTruthy durationSeconds then formatTime durationSeconds else "??:??"

/-! ## JS string primitives used by the probe -/

/-- `List`-level prefix test for `jsIncludes`. -/
def startsWithChars : List Char → List Char → Bool
  | [], _ => true
  | _ :: _, [] => false
  | a :: as, b :: bs => a = b && startsWithChars as bs

/-- `List`-level substring search for `jsIncludes`. -/
def includesChars (needle : List Char) : List Char → Bool
  | [] => startsWithChars needle []
  | c :: cs => startsWithChars needle (c :: cs) || includesChars needle cs

/-- JS `String.prototype.includes`. -/
def jsIncludes (s pat : String) : Bool :=
  includesChars pat.data s.data

/-- JS `String.prototype.trim` (whitespace at both ends removed). -/
def jsTrim (s : String) : String :=
  String.mk (((s.data.dropWhile Char.isWhitespace).reverse.dropWhile
    Char.isWhitespace).reverse)

/-- JS `String.prototype.toLowerCase` (ASCII, which is all the code compares). -/
def jsToLower (s : String) : String :=
  String.mk (s.data.map Char.toLower)

/-- Numeric value of a digit string (most significant first). -/
def digitsToNat (ds : List Char) : Nat :=
  ds.foldl (fun a c => a * 10 + (c.toNat - 48)) 0

/-- JS `parseFloat` restricted to its decimal-literal grammar:
optional sign, integer digits, optional fraction, optional exponent; the
longest valid prefix is converted, and `none` models `NaN` (no valid
numeric prefix).  `Infinity` literals are not modelled (the probe's tool
prints plain decimal seconds). -/
def jsParseFloat (s : String) : Option ℚ :=
  let cs := s.data.dropWhile Char.isWhitespace
  let sign : ℚ × List Char :=
    match cs with
    | '+' :: rest => (1, rest)
    | '-' :: rest => (-1, rest)
    | _ => (1, cs)
  let intDigits := sign.2.takeWhile Char.isDigit
  let afterInt := sign.2.dropWhile Char.isDigit
  let fracDigits : List Char :=
    match afterInt with
    | '.' :: rest => rest.takeWhile Char.isDigit
    | _ => []
  let afterFrac : List Char :=
    match afterInt with
    | '.' :: rest => rest.dropWhile Char.isDigit
    | _ => afterInt
  if intDigits.isEmpty && fracDigits.isEmpty then none
  else
    let mantissa : ℚ :=
      sign.1 * ((digitsToNat intDigits : ℚ) +
        (digitsToNat fracDigits : ℚ) / (10 : ℚ) ^ fracDigits.length)
    let expVal : ℤ :=
      match afterFrac with
      | 'e' :: rest | 'E' :: rest =>
        let esign : ℤ × List Char :=
          match rest with
          | '+' :: r => (1, r)
          | '-' :: r => (-1, r)
          | _ => (1, rest)
        let expDigits := esign.2.takeWhile Char.isDigit
        if expDigits.isEmpty then 0 else esign.1 * (digitsToNat expDigits : ℤ)
      | _ => 0
    some (if 0 ≤ expVal then mantissa * (10 : ℚ) ^ expVal.toNat
          else mantissa / (10 : ℚ) ^ (-expVal).toNat)

/-! ## Duration probe (`getAudioDuration`) -/

/-- Outcome of the one-shot `exec` of the probing tool, as seen by the
`exec` callback: either a non-null `error` (carrying its `message`), or a
successful run with the tool's stdout. -/
inductive ExecOutcome
  | execError (message : String)
  | success (stdout : String)

/-- Result of one `getAudioDuration` call: the resolved value (`none` is
the JS `null`, the unknown duration) and the `voice.warn` lines emitted
during the call, in order. -/
structure ProbeResult where
  duration : Option ℚ
  warnings : List String
  deriving DecidableEq

/-- Warning when the probing tool is not installed. -/
def ffprobeMissingWarning : String :=
  "ffprobe isn't available, so duration will be hidden. install ffmpeg to unlock it."

/-- Warning on any other execution error of the probing tool. -/
def ffprobeErrorWarning : String := "couldn't read the audio duration."

/-- Warning when the tool's output is not numeric. -/
def ffprobeFormatWarning : String := "ffprobe returned an unexpected duration format."

/-- `getAudioDuration` from the player module, as a function of the `exec`
outcome.  The promise only ever resolves (`resolve(null)` on every failure
path); it never rejects, which the total return type makes explicit. -/
def getAudioDuration (outcome : ExecOutcome) : ProbeResult :=
  match outcome with
  | ExecOutcome.execError msg =>
    if jsIncludes msg "ENOENT" || jsIncludes (jsToLower msg) "not found" then
      { duration := none, warnings := [ffprobeMissingWarning] }
    else
      { duration := none, warnings := [ffprobeErrorWarning] }
  | ExecOutcome.success stdout =>
    match jsParseFloat (jsTrim stdout) with
    | none => { duration := none, warnings := [ffprobeFormatWarning] }
    | some duration => { duration := some duration, warnings := [] }

/-! ## Interactive transport controller (`playWithInteractiveConsole`)

The session closes over `durationSeconds : Option ℚ` (`null` from a failed
probe is `none`).  The mutable closure variables `state.offset`,
`state.startedAt`, `state.playing`, `state.volume`, the `ffplayProcess`
handle (modelled by whether one is alive), `expectingStop`, `done` and the
promise's resolved value form `SessionState`.  Each transport action also
emits the sequence of decode-process lifecycle events (`ProcEvent`) it
causes, in the order the code causes them: the `await stopCurrentProcess()`
acknowledgement of an exit always precedes the `spawn` that follows it. -/

/-- A decode-process lifecycle event visible to a mock spawner: an
acknowledged exit of the live `ffplay` process, or a `spawn` carrying the
`-ss` start offset and the volume multiplier of the new process (the code
serializes both with `toFixed(2)` on the command line). -/
inductive ProcEvent
  | exit
  | spawn (startSeconds volume : ℚ)
  deriving DecidableEq

/-- The mutable state of one interactive playback session. -/
structure SessionState where
  offset : ℚ
  startedAt : ℚ
  playing : Bool
  volume : ℚ
  alive : Bool
  expectingStop : Bool
  done : Bool
  result : Option Bool
  deriving DecidableEq

/-- The session state right after `playWithInteractiveConsole` initializes
its closure variables (before the initial `startPlayback(0)`). -/
def initState (now : ℚ) : SessionState :=
  { offset := 0, startedAt := now, playing := false, volume := 1,
    alive := false, expectingStop := false, done := false, result := none }

/-- `clampPosition` from the session closure: lower-clamp at 0 always;
upper-clamp at the duration only when it is a known positive number
(the JS guard `!durationSeconds || durationSeconds <= 0` skips the upper
clamp for `null`, `0` and negatives). -/
def clampPosition (durationSeconds : Option ℚ) (seconds : ℚ) : ℚ :=
  let safeValue := jsMax 0 seconds
  match durationSeconds with
  | none => safeValue
  | some t => if t ≤ 0 then safeValue else jsMin safeValue t

/-- `getLivePosition` from the session closure (`now` in milliseconds). -/
def getLivePosition (durationSeconds : Option ℚ) (s : SessionState) (now : ℚ) : ℚ :=
  if s.playing then
    clampPosition durationSeconds (s.offset + (now - s.startedAt) / 1000)
  else
    clampPosition durationSeconds s.offset

/-- `clampVolume` from the session closure. -/
def clampVolume (value : ℚ) : ℚ :=
  jsMin (jsMax value MIN_VOLUME) MAX_VOLUME

/-- The second line of `render`'s status block (progress bar, elapsed /
total, playing tag, volume percentage). -/
def renderStatusLine (durationSeconds : Option ℚ) (s : SessionState) (now : ℚ) : String :=
  let current := getLivePosition durationSeconds s now
  let volumePercent : ℤ := jsRound (s.volume * 100)
  "[" ++ buildProgressBar current durationSeconds ++ "] " ++
    formatTime (some current) ++ " / " ++ durationLabel durationSeconds ++
    " · " ++ (if s.playing then "playing" else "paused") ++
    " · vol " ++ toString volumePercent ++ "%"

/-- `stopCurrentProcess`: no live process resolves immediately; otherwise
the kill is sent and the promise resolves when the close event is observed
(`handleProcessClose` with `expectingStop` set), after which the handle is
cleared.  The state after the awaited call therefore has no live process
and `expectingStop` reset; the acknowledged exit is emitted. -/
def stopCurrentProcess (s : SessionState) : SessionState × List ProcEvent :=
  if s.alive then
    ({ s with alive := false, expectingStop := false }, [ProcEvent.exit])
  else
    (s, [])

/-- `startPlayback`: await `stopCurrentProcess()`, clamp the requested
start, reset `offset`/`startedAt`/`playing`, then spawn `ffplay` at the
clamped start with the current volume. -/
def startPlayback (durationSeconds : Option ℚ) (s : SessionState)
    (now startSeconds : ℚ) : SessionState × List ProcEvent :=
  let stopped := stopCurrentProcess s
  let start := clampPosition durationSeconds startSeconds
  let s1 := { stopped.1 with offset := start, startedAt := now, playing := true,
                             expectingStop := false, alive := true }
  (s1, stopped.2 ++ [ProcEvent.spawn start s1.volume])

/-- `pausePlayback`: freeze `offset` at the live position, clear `playing`,
then tear the process down (no replacement is spawned). -/
def pausePlayback (durationSeconds : Option ℚ) (s : SessionState) (now : ℚ) :
    SessionState × List ProcEvent :=
  if s.playing then
    stopCurrentProcess { s with offset := getLivePosition durationSeconds s now,
                                playing := false }
  else
    (s, [])

/-- `resumePlayback`: restart playback at the frozen offset. -/
def resumePlayback (durationSeconds : Option ℚ) (s : SessionState) (now : ℚ) :
    SessionState × List ProcEvent :=
  startPlayback durationSeconds s now s.offset

/-- `seekBy`: clamp the live position shifted by `deltaSeconds`, store it,
and restart the decode process there only when the session was playing. -/
def seekBy (durationSeconds : Option ℚ) (s : SessionState) (now deltaSeconds : ℚ) :
    SessionState × List ProcEvent :=
  let target := clampPosition durationSeconds
    (getLivePosition durationSeconds s now + deltaSeconds)
  let s1 := { s with offset := target }
  if s.playing then
    startPlayback durationSeconds s1 now target
  else
    (s1, [])

/-- `adjustVolume`: round the stepped volume to two decimals, clamp it to
`[MIN_VOLUME, MAX_VOLUME]`; an unchanged level only re-renders, otherwise
the new level is stored and, while playing, the decode process is
restarted at the live position. -/
def adjustVolume (durationSeconds : Option ℚ) (s : SessionState) (now delta : ℚ) :
    SessionState × List ProcEvent :=
  let nextVolume := clampVolume ((jsRound ((s.volume + delta) * 100) : ℚ) / 100)
  if nextVolume = s.volume then
    (s, [])
  else
    let s1 := { s with volume := nextVolume }
    if s1.playing then
      startPlayback durationSeconds s1 now (getLivePosition durationSeconds s1 now)
    else
      (s1, [])

/-- `finalize(completed)`: once per session, mark it done, tear down any
live process awaiting the acknowledgement, and resolve the session promise
with the completion flag. -/
def finalize (s : SessionState) (completed : Bool) : SessionState × List ProcEvent :=
  if s.done then
    (s, [])
  else
    let stopped := stopCurrentProcess { s with done := true }
    ({ stopped.1 with result := some completed }, stopped.2)

/-- `handleProcessClose`, fired when the live decode process exits: a close
preceded by a controller kill (`expectingStop`) only acknowledges the stop;
an unexpected close (natural end or crash of the process itself) clears
`playing` and finalizes the session with `completed = true`. -/
def handleProcessClose (s : SessionState) : SessionState × List ProcEvent :=
  if s.expectingStop then
    ({ s with expectingStop := false, alive := false }, [ProcEvent.exit])
  else
    let finalized := finalize { s with alive := false, playing := false } true
    (finalized.1, ProcEvent.exit :: finalized.2)

/-- The keys the `onKeypress` handler distinguishes (`ctrlC` is the
`key.ctrl && key.name === "c"` case; `other` is any unbound key). -/
inductive Key
  | space | left | right | up | down | q | escape | ret | ctrlC | other
  deriving DecidableEq

/-- `onKeypress`: dispatch one keypress to the transport actions. -/
def onKeypress (durationSeconds : Option ℚ) (s : SessionState) (now : ℚ) (k : Key) :
    SessionState × List ProcEvent :=
  match k with
  | Key.ctrlC => finalize s false
  | Key.space =>
    if s.playing then pausePlayback durationSeconds s now
    else resumePlayback durationSeconds s now
  | Key.left => seekBy durationSeconds s now (-SEEK_SECONDS)
  | Key.right => seekBy durationSeconds s now SEEK_SECONDS
  | Key.up => adjustVolume durationSeconds s now VOLUME_STEP
  | Key.down => adjustVolume durationSeconds s now (-VOLUME_STEP)
  | Key.q => finalize s false
  | Key.escape => finalize s false
  | Key.ret => finalize s false
  | Key.other => (s, [])

/-- An externally observable session event: a keypress (with the wall clock
at which the handler runs) or a close of the decode process that was not
requested by the controller. -/
inductive SessionEvent
  | key (k : Key) (now : ℚ)
  | processClose

/-- One event of the session loop.  After `finalize`/`fail` set `done` the
keypress listener is detached and the process has been stopped, so events
are no-ops; a close event only exists while a process is alive. -/
def step (durationSeconds : Option ℚ) (s : SessionState) (e : SessionEvent) :
    SessionState × List ProcEvent :=
  if s.done then
    (s, [])
  else
    match e with
    | SessionEvent.key k now => onKeypress durationSeconds s now k
    | SessionEvent.processClose =>
      if s.alive then handleProcessClose s else (s, [])

/-- Run a list of session events, concatenating the emitted process
events. -/
def runEvents (durationSeconds : Option ℚ) (s : SessionState) :
    List SessionEvent → SessionState × List ProcEvent
  | [] => (s, [])
  | e :: rest =>
    let first := step durationSeconds s e
    let next := runEvents durationSeconds first.1 rest
    (next.1, first.2 ++ next.2)

/-- A whole interactive session: initialize the closure state, run the
initial `startPlayback(0)`, then process the event stream. -/
def runSession (durationSeconds : Option ℚ) (now0 : ℚ)
    (events : List SessionEvent) : SessionState × List ProcEvent :=
  let started := startPlayback durationSeconds (initState now0) now0 0
  let rest := runEvents durationSeconds started.1 events
  (rest.1, started.2 ++ rest.2)

/-- Number of live decode processes after a sequence of lifecycle events,
starting from `n` live ones (a mock spawner's counter). -/
def liveAfter (n : Nat) : List ProcEvent → Nat
  | [] => n
  | ProcEvent.exit :: rest => liveAfter (n - 1) rest
  | ProcEvent.spawn _ _ :: rest => liveAfter (n + 1) rest

/-! ## Basic playback adapter (`playWithBasicAudio`)

The adapter's promise is settled exactly once; its state is the
`abortedBySigint` flag, whether the forced `SIGKILL` was delivered to the
audio process, and the settled outcome.  A playback that is mid-flight has
a live `audioProcess` handle (the code rejects up front when the player
library returns none), so the interrupt handler's `audioProcess?.kill`
reaches a real process. -/

/-- A JS `Error` as the adapter inspects it: its message and whether
`err.code === "ENOENT"`. -/
structure JsError where
  message : String
  codeENOENT : Bool
  deriving DecidableEq

/-- How the adapter's promise was settled. -/
inductive BasicOutcome
  | resolved (completed : Bool)
  | rejected (message : String)
  deriving DecidableEq

/-- The adapter's mutable state during one call. -/
structure BasicState where
  abortedBySigint : Bool
  killSent : Bool
  settled : Option BasicOutcome
  deriving DecidableEq

/-- The adapter state right after `audioPlayer.play` starts the process. -/
def basicInit : BasicState :=
  { abortedBySigint := false, killSent := false, settled := none }

/-- The descriptive message substituted when no compatible player exists. -/
def noPlayerMessage : String :=
  "no compatible audio player found (afplay, mplayer, ...)."

/-- `handleSigint`: first interrupt marks the abort and force-kills the
audio process; repeats are ignored. -/
def handleSigint (s : BasicState) : BasicState :=
  if s.abortedBySigint then s
  else { s with abortedBySigint := true, killSent := true }

/-- The completion callback passed to `audioPlayer.play`: an error after an
interrupt resolves `completed = false`; any other error rejects (with the
friendlier message when no player could be found and debug mode is off);
no error resolves `completed = true`.  A promise settles only once. -/
def playCallback (debugMode : Bool) (s : BasicState) (err : Option JsError) :
    BasicState :=
  match s.settled with
  | some _ => s
  | none =>
    match err with
    | some e =>
      if s.abortedBySigint then
        { s with settled := some (BasicOutcome.resolved false) }
      else
        let errorMsg :=
          if !debugMode &&
              (jsIncludes e.message "Couldn't find a suitable audio player" ||
                jsIncludes (jsToLower e.message) "no such file" ||
                e.codeENOENT) then
            noPlayerMessage
          else e.message
        { s with settled := some (BasicOutcome.rejected errorMsg) }
    | none => { s with settled := some (BasicOutcome.resolved true) }

/-- The asynchronous events one basic playback call reacts to. -/
inductive BasicEvent
  | sigint
  | playerCallback (err : Option JsError)

/-- Apply one event to the adapter state. -/
def basicStep (debugMode : Bool) (s : BasicState) : BasicEvent → BasicState
  | BasicEvent.sigint => handleSigint s
  | BasicEvent.playerCallback err => playCallback debugMode s err

/-- Run a basic playback call over its event sequence. -/
def runBasic (debugMode : Bool) (events : List BasicEvent) : BasicState :=
  events.foldl (basicStep debugMode) basicInit

/-! ## Degradation notices (`interactivePlayerNoticeShown`)

The module-level `interactivePlayerNoticeShown` flag is process-wide; every
degradation hint of `playAudioFile` goes through
`notifyInteractiveLimitation`. -/

/-- The hint when the interactive player failed to start. -/
def fallbackNotice : String :=
  "couldn't start the console player, so i'm using the basic one for now."

/-- The hint when standard input is not a terminal. -/
def noTtyNotice : String :=
  "run bata inside a terminal to unlock arrow controls. using the basic player for now."

/-- The hint when the `ffplay` binary is missing. -/
def noFfplayNotice : String :=
  "install ffmpeg (ffplay) to unlock arrow controls. using the basic player for now."

/-- `notifyInteractiveLimitation`: show the hint only while the process-wide
flag is unset, then set it.  Returns the new flag and the hints printed. -/
def notifyInteractiveLimitation (shown : Bool) (message : String) :
    Bool × List String :=
  if shown then (shown, [])
  else (true, [message])

/-- The environment one `playAudioFile` call observes: whether stdin is a
TTY, whether the `ffplay` version probe succeeds, and whether the
interactive player, once chosen, throws while starting. -/
structure PlayEnv where
  isTTY : Bool
  ffplayOk : Bool
  interactiveStartFails : Bool

/-- The degradation hints of one `playAudioFile` call: the interactive path
hints only when it falls back after a start failure; otherwise the missing
prerequisite (no TTY first, then no `ffplay`) is hinted.  Returns the
updated process-wide flag and the hints printed. -/
def playAudioFileNotices (env : PlayEnv) (shown : Bool) : Bool × List String :=
  if env.isTTY && env.ffplayOk then
    if env.interactiveStartFails then
      notifyInteractiveLimitation shown fallbackNotice
    else (shown, [])
  else if !env.isTTY then
    notifyInteractiveLimitation shown noTtyNotice
  else
    notifyInteractiveLimitation shown noFfplayNotice

/-- Run a sequence of playback sessions in one process, accumulating every
hint shown, starting from flag state `shown`. -/
def runNoticeSessions (shown : Bool) : List PlayEnv → Bool × List String
  | [] => (shown, [])
  | env :: rest =>
    let first := playAudioFileNotices env shown
    let next := runNoticeSessions first.1 rest
    (next.1, first.2 ++ next.2)

/-! ## Theorems

### Decode-process lifecycle chains (claim C1)

`ProcChain a tr b` says the lifecycle events `tr` are legal when `a`
records whether a process is alive before them and `b` after: an exit
needs a live process, a spawn needs none. -/

/-- Legal decode-process event sequences between two alive-flags. -/
inductive ProcChain : Bool → List ProcEvent → Bool → Prop
  | nil (a : Bool) : ProcChain a [] a
  | exit {rest : List ProcEvent} {b : Bool} :
      ProcChain false rest b → ProcChain true (ProcEvent.exit :: rest) b
  | spawn (st vol : ℚ) {rest : List ProcEvent} {b : Bool} :
      ProcChain true rest b → ProcChain false (ProcEvent.spawn st vol :: rest) b

/-- Transport a chain along an equality of its final flag. -/
theorem ProcChain.cast_end {a x y : Bool} {l : List ProcEvent}
    (h : ProcChain a l x) (e : x = y) : ProcChain a l y := e ▸ h

/-- Chains compose. -/
theorem ProcChain.append {a b c : Bool} {l m : List ProcEvent}
    (h₁ : ProcChain a l b) (h₂ : ProcChain b m c) : ProcChain a (l ++ m) c := by
  induction h₁ with
  | nil a => simpa using h₂
  | exit _ ih => exact ProcChain.exit (ih h₂)
  | spawn st vol _ ih => exact ProcChain.spawn st vol (ih h₂)

/-- A chain splits at any decomposition point. -/
theorem ProcChain.split {c : Bool} :
    ∀ (pre : List ProcEvent) {a : Bool} {post : List ProcEvent},
      ProcChain a (pre ++ post) c →
      ∃ b, ProcChain a pre b ∧ ProcChain b post c := by
  intro pre
  induction pre with
  | nil => intro a post h; exact ⟨a, ProcChain.nil a, h⟩
  | cons e rest ih =>
    intro a post h
    cases h with
    | exit h' =>
      obtain ⟨b, hb₁, hb₂⟩ := ih h'
      exact ⟨b, ProcChain.exit hb₁, hb₂⟩
    | spawn st vol h' =>
      obtain ⟨b, hb₁, hb₂⟩ := ih h'
      exact ⟨b, ProcChain.spawn st vol hb₁, hb₂⟩

/-- The mock live-process counter traverses a chain from its start flag to
its end flag. -/
theorem ProcChain.liveAfter_eq {a b : Bool} {l : List ProcEvent}
    (h : ProcChain a l b) : liveAfter a.toNat l = b.toNat := by
  induction h with
  | nil a => rfl
  | exit _ ih => simpa [liveAfter] using ih
  | spawn st vol _ ih => simpa [liveAfter] using ih

/-! ### Equational descriptions of the transport actions -/

/-- `stopCurrentProcess` on a live process. -/
theorem stopCurrentProcess_eq_alive {s : SessionState} (h : s.alive = true) :
    stopCurrentProcess s =
      ({ s with alive := false, expectingStop := false }, [ProcEvent.exit]) := by
  simp only [stopCurrentProcess]
  rw [if_pos h]

/-- `stopCurrentProcess` with no live process. -/
theorem stopCurrentProcess_eq_dead {s : SessionState} (h : s.alive = false) :
    stopCurrentProcess s = (s, []) := by
  simp only [stopCurrentProcess]
  rw [if_neg]
  simp [h]

/-- `stopCurrentProcess` leaves no live process. -/
theorem stopCurrentProcess_alive (s : SessionState) :
    (stopCurrentProcess s).1.alive = false := by
  cases h : s.alive
  · rw [stopCurrentProcess_eq_dead h]
    exact h
  · rw [stopCurrentProcess_eq_alive h]

/-- The final state and full event list of `startPlayback`. -/
theorem startPlayback_eq (d : Option ℚ) (s : SessionState) (now x : ℚ) :
    startPlayback d s now x =
      ({ s with offset := clampPosition d x, startedAt := now, playing := true,
                expectingStop := false, alive := true },
       (if s.alive then [ProcEvent.exit] else []) ++
         [ProcEvent.spawn (clampPosition d x) s.volume]) := by
  cases h : s.alive
  · simp [startPlayback, stopCurrentProcess_eq_dead h, h]
  · simp [startPlayback, stopCurrentProcess_eq_alive h, h]

/-! ### Each action emits a legal chain -/

/-- `stopCurrentProcess` emits a legal chain. -/
theorem stopCurrentProcess_chain {s : SessionState} {a : Bool} (ha : s.alive = a) :
    ProcChain a (stopCurrentProcess s).2 (stopCurrentProcess s).1.alive := by
  subst ha
  cases h : s.alive
  · rw [stopCurrentProcess_eq_dead h]
    exact (ProcChain.nil false).cast_end h.symm
  · rw [stopCurrentProcess_eq_alive h]
    exact ProcChain.exit (ProcChain.nil false)

/-- `startPlayback` emits a legal chain. -/
theorem startPlayback_chain {d : Option ℚ} {s : SessionState} {now x : ℚ} {a : Bool}
    (ha : s.alive = a) :
    ProcChain a (startPlayback d s now x).2 (startPlayback d s now x).1.alive := by
  subst ha
  rw [startPlayback_eq]
  show ProcChain s.alive
    ((if s.alive = true then [ProcEvent.exit] else []) ++
      [ProcEvent.spawn (clampPosition d x) s.volume]) true
  cases h : s.alive
  · exact ProcChain.spawn _ _ (ProcChain.nil true)
  · exact ProcChain.exit (ProcChain.spawn _ _ (ProcChain.nil true))

/-- `pausePlayback` emits a legal chain. -/
theorem pausePlayback_chain {d : Option ℚ} {s : SessionState} {now : ℚ} {a : Bool}
    (ha : s.alive = a) :
    ProcChain a (pausePlayback d s now).2 (pausePlayback d s now).1.alive := by
  simp only [pausePlayback]
  by_cases hp : s.playing = true
  · rw [if_pos hp]
    exact stopCurrentProcess_chain ha
  · rw [if_neg hp]
    exact (ProcChain.nil a).cast_end ha.symm

/-- `resumePlayback` emits a legal chain. -/
theorem resumePlayback_chain {d : Option ℚ} {s : SessionState} {now : ℚ} {a : Bool}
    (ha : s.alive = a) :
    ProcChain a (resumePlayback d s now).2 (resumePlayback d s now).1.alive := by
  simp only [resumePlayback]
  exact startPlayback_chain ha

/-- `seekBy` emits a legal chain. -/
theorem seekBy_chain {d : Option ℚ} {s : SessionState} {now delta : ℚ} {a : Bool}
    (ha : s.alive = a) :
    ProcChain a (seekBy d s now delta).2 (seekBy d s now delta).1.alive := by
  simp only [seekBy]
  by_cases hp : s.playing = true
  · rw [if_pos hp]
    exact startPlayback_chain ha
  · rw [if_neg hp]
    exact (ProcChain.nil a).cast_end ha.symm

/-- `adjustVolume` emits a legal chain. -/
theorem adjustVolume_chain {d : Option ℚ} {s : SessionState} {now delta : ℚ} {a : Bool}
    (ha : s.alive = a) :
    ProcChain a (adjustVolume d s now delta).2 (adjustVolume d s now delta).1.alive := by
  simp only [adjustVolume]
  by_cases hv :
      clampVolume ((jsRound ((s.volume + delta) * 100) : ℚ) / 100) = s.volume
  · rw [if_pos hv]
    exact (ProcChain.nil a).cast_end ha.symm
  · rw [if_neg hv]
    by_cases hp : s.playing = true
    · rw [if_pos hp]
      exact startPlayback_chain ha
    · rw [if_neg hp]
      exact (ProcChain.nil a).cast_end ha.symm

/-- `finalize` emits a legal chain. -/
theorem finalize_chain {s : SessionState} {completed : Bool} {a : Bool}
    (ha : s.alive = a) :
    ProcChain a (finalize s completed).2 (finalize s completed).1.alive := by
  simp only [finalize]
  by_cases hd : s.done = true
  · rw [if_pos hd]
    exact (ProcChain.nil a).cast_end ha.symm
  · rw [if_neg hd]
    exact stopCurrentProcess_chain ha

/-- `handleProcessClose` emits a legal chain. -/
theorem handleProcessClose_chain {s : SessionState} {a : Bool} (ha : s.alive = a)
    (h : s.alive = true) :
    ProcChain a (handleProcessClose s).2 (handleProcessClose s).1.alive := by
  subst ha
  rw [h]
  simp only [handleProcessClose]
  by_cases he : s.expectingStop = true
  · rw [if_pos he]
    exact ProcChain.exit (ProcChain.nil false)
  · rw [if_neg he]
    exact ProcChain.exit (finalize_chain rfl)

/-- `onKeypress` emits a legal chain. -/
theorem onKeypress_chain {d : Option ℚ} {s : SessionState} {now : ℚ} {k : Key}
    {a : Bool} (ha : s.alive = a) :
    ProcChain a (onKeypress d s now k).2 (onKeypress d s now k).1.alive := by
  cases k
  case ctrlC =>
    simp only [onKeypress]
    exact finalize_chain ha
  case space =>
    simp only [onKeypress]
    by_cases hp : s.playing = true
    · rw [if_pos hp]
      exact pausePlayback_chain ha
    · rw [if_neg hp]
      exact resumePlayback_chain ha
  case left =>
    simp only [onKeypress]
    exact seekBy_chain ha
  case right =>
    simp only [onKeypress]
    exact seekBy_chain ha
  case up =>
    simp only [onKeypress]
    exact adjustVolume_chain ha
  case down =>
    simp only [onKeypress]
    exact adjustVolume_chain ha
  case q =>
    simp only [onKeypress]
    exact finalize_chain ha
  case escape =>
    simp only [onKeypress]
    exact finalize_chain ha
  case ret =>
    simp only [onKeypress]
    exact finalize_chain ha
  case other =>
    simp only [onKeypress]
    exact (ProcChain.nil a).cast_end ha.symm

/-- `step` emits a legal chain. -/
theorem step_chain {d : Option ℚ} {s : SessionState} {e : SessionEvent} {a : Bool}
    (ha : s.alive = a) :
    ProcChain a (step d s e).2 (step d s e).1.alive := by
  cases e with
  | key k now =>
    simp only [step]
    by_cases hd : s.done = true
    · rw [if_pos hd]
      exact (ProcChain.nil a).cast_end ha.symm
    · rw [if_neg hd]
      exact onKeypress_chain ha
  | processClose =>
    simp only [step]
    by_cases hd : s.done = true
    · rw [if_pos hd]
      exact (ProcChain.nil a).cast_end ha.symm
    · rw [if_neg hd]
      by_cases hal : s.alive = true
      · rw [if_pos hal]
        exact handleProcessClose_chain ha hal
      · rw [if_neg hal]
        exact (ProcChain.nil a).cast_end ha.symm

/-- `runEvents` emits a legal chain. -/
theorem runEvents_chain {d : Option ℚ} (events : List SessionEvent) :
    ∀ {s : SessionState} {a : Bool}, s.alive = a →
      ProcChain a (runEvents d s events).2 (runEvents d s events).1.alive := by
  induction events with
  | nil =>
    intro s a ha
    exact (ProcChain.nil a).cast_end ha.symm
  | cons e rest ih =>
    intro s a ha
    simp only [runEvents]
    exact ProcChain.append (step_chain ha) (ih rfl)

/-- A whole interactive session emits a legal chain from the no-process
initial state. -/
theorem runSession_chain (d : Option ℚ) (now0 : ℚ) (events : List SessionEvent) :
    ProcChain false (runSession d now0 events).2 (runSession d now0 events).1.alive := by
  simp only [runSession]
  exact ProcChain.append (startPlayback_chain rfl) (runEvents_chain events rfl)

/-! ### Claim C1 -/

/-- C1: for every sequence of transport actions of an interactive session,
at any instant at most one decode process handle is alive (every prefix of
the lifecycle-event trace leaves a mock spawner's live counter at most 1),
and a new decode process is never spawned before the previous one's exit
has been acknowledged (at every spawn point the live counter is 0). -/
theorem decode_process_exclusivity (d : Option ℚ) (now0 : ℚ)
    (events : List SessionEvent) (pre post : List ProcEvent)
    (hsplit : (runSession d now0 events).2 = pre ++ post) :
    liveAfter 0 pre ≤ 1 ∧
      ∀ st vol rest, post = ProcEvent.spawn st vol :: rest → liveAfter 0 pre = 0 := by
  have hchain := runSession_chain d now0 events
  rw [hsplit] at hchain
  obtain ⟨b, hb₁, hb₂⟩ := ProcChain.split pre hchain
  have hlive : liveAfter 0 pre = b.toNat := hb₁.liveAfter_eq
  constructor
  · rw [hlive]
    cases b <;> simp
  · intro st vol rest hpost
    rw [hpost] at hb₂
    cases hb₂ with
    | spawn _ _ _ => rw [hlive]; rfl

/-- Concrete instance of `decode_process_exclusivity`: the empty event
sequence on an unknown duration, whose trace is the single initial spawn. -/
theorem decode_process_exclusivity_witness :
    liveAfter 0 [] ≤ 1 ∧
      ∀ st vol rest, [ProcEvent.spawn 0 1] = ProcEvent.spawn st vol :: rest →
        liveAfter 0 [] = 0 :=
  decode_process_exclusivity none 0 [] [] [ProcEvent.spawn 0 1] (by decide)

/-! ### Claim C2: seek clamping -/

/-- `jsRound` is the floor of `x + 1/2`. -/
theorem jsRound_eq (x : ℚ) : jsRound x = ⌊x + 1/2⌋ := by
  unfold jsRound
  rw [Rat.floor_def]
  exact Rat.floor_def' _

/-- `jsMax` agrees with the lattice `max` on `ℚ`. -/
theorem jsMax_eq (a b : ℚ) : jsMax a b = max a b := by
  unfold jsMax
  split
  · exact (max_eq_right (by assumption)).symm
  · exact (max_eq_left (le_of_not_le (by assumption))).symm

/-- `jsMin` agrees with the lattice `min` on `ℚ`. -/
theorem jsMin_eq (a b : ℚ) : jsMin a b = min a b := by
  unfold jsMin
  split
  · exact (min_eq_left (by assumption)).symm
  · exact (min_eq_right (le_of_not_le (by assumption))).symm

/-- `clampPosition` through the lattice operations. -/
theorem clampPosition_eq_lattice (d : Option ℚ) (x : ℚ) :
    clampPosition d x =
      match d with
      | none => max 0 x
      | some t => if t ≤ 0 then max 0 x else min (max 0 x) t := by
  unfold clampPosition
  cases d with
  | none => exact jsMax_eq 0 x
  | some t =>
    by_cases h : t ≤ 0
    · simp only [h, if_true]
      exact jsMax_eq 0 x
    · simp only [h, if_false]
      rw [jsMin_eq, jsMax_eq]

theorem clampPosition_idem (d : Option ℚ) (x : ℚ) :
    clampPosition d (clampPosition d x) = clampPosition d x := by
  rw [clampPosition_eq_lattice, clampPosition_eq_lattice]
  cases d with
  | none => simp [le_max_left]
  | some t =>
    by_cases h : t ≤ 0
    · simp [h, le_max_left]
    · simp only [h, if_false]
      have h0 : (0 : ℚ) ≤ min (max 0 x) t :=
        le_min (le_max_left 0 x) (le_of_lt (not_le.mp h))
      rw [max_eq_right h0, min_assoc, min_self]

/-- `getLivePosition` is already clamped. -/
theorem clampPosition_getLivePosition (d : Option ℚ) (s : SessionState) (now : ℚ) :
    clampPosition d (getLivePosition d s now) = getLivePosition d s now := by
  unfold getLivePosition
  by_cases h : s.playing = true <;>
    simp only [h, if_true, if_false, Bool.false_eq_true, clampPosition_idem]

/-- `stopCurrentProcess` never changes the stored offset. -/
theorem stopCurrentProcess_offset (s : SessionState) :
    (stopCurrentProcess s).1.offset = s.offset := by
  cases h : s.alive
  · rw [stopCurrentProcess_eq_dead h]
  · rw [stopCurrentProcess_eq_alive h]

/-- `stopCurrentProcess` never changes the stored volume. -/
theorem stopCurrentProcess_volume (s : SessionState) :
    (stopCurrentProcess s).1.volume = s.volume := by
  cases h : s.alive
  · rw [stopCurrentProcess_eq_dead h]
  · rw [stopCurrentProcess_eq_alive h]

/-- The offset stored by `seekBy`. -/
theorem seekBy_offset (d : Option ℚ) (s : SessionState) (now delta : ℚ) :
    ((seekBy d s now delta).1).offset =
      clampPosition d (getLivePosition d s now + delta) := by
  simp only [seekBy]
  by_cases hp : s.playing = true
  · rw [if_pos hp, startPlayback_eq]
    exact clampPosition_idem d _
  · rw [if_neg hp]

/-- C2: every seek stores the clamped target
`clampPosition (livePosition + delta)`, and the clamp behaves as claimed:
a target below 0 becomes 0; with a known positive duration `D` a target
above `D` becomes `D`; with an unknown duration only the lower bound
applies (the result is `max 0 target`, never upper-clamped). -/
theorem seek_offset_clamping (d : Option ℚ) (s : SessionState)
    (now delta x y D : ℚ) :
    ((seekBy d s now delta).1).offset =
        clampPosition d (getLivePosition d s now + delta) ∧
      (x < 0 → clampPosition d x = 0) ∧
      (0 < D → D < y → clampPosition (some D) y = D) ∧
      clampPosition none y = max 0 y := by
  refine ⟨seekBy_offset d s now delta, ?_, ?_, ?_⟩
  · intro hx
    rw [clampPosition_eq_lattice]
    have hmax : max 0 x = 0 := max_eq_left (le_of_lt hx)
    cases d with
    | none => exact hmax
    | some t =>
      by_cases h : t ≤ 0
      · simp only [h, if_true]
        exact hmax
      · simp only [h, if_false, hmax]
        exact min_eq_left (le_of_lt (not_le.mp h))
  · intro hD hy
    rw [clampPosition_eq_lattice]
    simp only [not_le.mpr hD, if_false]
    exact min_eq_right (le_max_of_le_right (le_of_lt hy))
  · exact clampPosition_eq_lattice none y

/-- Concrete instance of `seek_offset_clamping` (duration 10, seek forward
from a paused session; targets `-1`, `12`). -/
theorem seek_offset_clamping_witness :
    ((seekBy (some 10) (initState 0) 3000 5).1).offset =
        clampPosition (some 10) (getLivePosition (some 10) (initState 0) 3000 + 5) ∧
      ((-1 : ℚ) < 0 → clampPosition (some 10) (-1) = 0) ∧
      ((0 : ℚ) < 10 → (10 : ℚ) < 12 → clampPosition (some 10) 12 = 10) ∧
      clampPosition none 12 = max 0 12 :=
  seek_offset_clamping (some 10) (initState 0) 3000 5 (-1) 12 10

/-! ### Claim C3: volume boundaries -/

/-- `clampVolume` never exceeds `MAX_VOLUME`. -/
theorem clampVolume_le (v : ℚ) : clampVolume v ≤ MAX_VOLUME := by
  unfold clampVolume
  rw [jsMin_eq]
  exact min_le_right _ _

/-- `clampVolume` never drops below `MIN_VOLUME`. -/
theorem clampVolume_nonneg (v : ℚ) : MIN_VOLUME ≤ clampVolume v := by
  unfold clampVolume
  rw [jsMin_eq, jsMax_eq]
  refine le_min (le_max_right _ _) ?_
  norm_num [MIN_VOLUME, MAX_VOLUME]

/-- One `adjustVolume` leaves the volume either untouched or clamped. -/
theorem adjustVolume_volume_cases (d : Option ℚ) (s : SessionState)
    (now delta : ℚ) :
    ((adjustVolume d s now delta).1).volume = s.volume ∨
      ((adjustVolume d s now delta).1).volume =
        clampVolume ((jsRound ((s.volume + delta) * 100) : ℚ) / 100) := by
  simp only [adjustVolume]
  by_cases hv :
      clampVolume ((jsRound ((s.volume + delta) * 100) : ℚ) / 100) = s.volume
  · rw [if_pos hv]
    left
    rfl
  · rw [if_neg hv]
    by_cases hp : s.playing = true
    · rw [if_pos hp, startPlayback_eq]
      right
      rfl
    · rw [if_neg hp]
      right
      rfl

/-- An `adjustVolume` step preserves the upper volume bound. -/
theorem adjustVolume_le (d : Option ℚ) (s : SessionState) (now delta : ℚ)
    (h : s.volume ≤ MAX_VOLUME) :
    ((adjustVolume d s now delta).1).volume ≤ MAX_VOLUME := by
  rcases adjustVolume_volume_cases d s now delta with hc | hc
  · rw [hc]; exact h
  · rw [hc]; exact clampVolume_le _

/-- An `adjustVolume` step preserves the lower volume bound. -/
theorem adjustVolume_nonneg (d : Option ℚ) (s : SessionState) (now delta : ℚ)
    (h : MIN_VOLUME ≤ s.volume) :
    MIN_VOLUME ≤ ((adjustVolume d s now delta).1).volume := by
  rcases adjustVolume_volume_cases d s now delta with hc | hc
  · rw [hc]; exact h
  · rw [hc]; exact clampVolume_nonneg _

/-- C3: over every sequence of up-arrow presses the volume never exceeds
`MAX_VOLUME = 4`; over every sequence of down-arrow presses it never drops
below `MIN_VOLUME = 0`; and a press at the respective boundary leaves the
whole session state unchanged (and spawns nothing). -/
theorem volume_boundary_behaviour (d : Option ℚ) (now : ℚ) (ups downs : List ℚ)
    (s₁ s₂ s₃ s₄ : SessionState) :
    (s₁.volume ≤ MAX_VOLUME →
      (ups.foldl (fun st n => (adjustVolume d st n VOLUME_STEP).1) s₁).volume ≤
        MAX_VOLUME) ∧
    (MIN_VOLUME ≤ s₂.volume →
      MIN_VOLUME ≤
        (downs.foldl (fun st n => (adjustVolume d st n (-VOLUME_STEP)).1) s₂).volume) ∧
    (s₃.volume = MAX_VOLUME → adjustVolume d s₃ now VOLUME_STEP = (s₃, [])) ∧
    (s₄.volume = MIN_VOLUME → adjustVolume d s₄ now (-VOLUME_STEP) = (s₄, [])) := by
  refine ⟨?_, ?_, ?_, ?_⟩
  · induction ups generalizing s₁ with
    | nil => exact fun h => h
    | cons n rest ih =>
      intro h
      exact ih _ (adjustVolume_le d s₁ n VOLUME_STEP h)
  · induction downs generalizing s₂ with
    | nil => exact fun h => h
    | cons n rest ih =>
      intro h
      exact ih _ (adjustVolume_nonneg d s₂ n (-VOLUME_STEP) h)
  · intro h4
    simp only [adjustVolume]
    rw [if_pos]
    rw [h4, jsRound_eq]
    norm_num [clampVolume, jsMin, jsMax, VOLUME_STEP, MAX_VOLUME, MIN_VOLUME]
  · intro h0
    simp only [adjustVolume]
    rw [if_pos]
    rw [h0, jsRound_eq]
    norm_num [clampVolume, jsMin, jsMax, VOLUME_STEP, MAX_VOLUME, MIN_VOLUME]

/-- Concrete instance of `volume_boundary_behaviour`: three up presses from
the default volume 1, two down presses, and boundary states at 4 and 0. -/
theorem volume_boundary_behaviour_witness :
    ((initState 0).volume ≤ MAX_VOLUME →
      ([10, 20, 30].foldl
          (fun st n => (adjustVolume none st n VOLUME_STEP).1) (initState 0)).volume ≤
        MAX_VOLUME) ∧
    (MIN_VOLUME ≤ (initState 0).volume →
      MIN_VOLUME ≤
        ([10, 20].foldl
            (fun st n => (adjustVolume none st n (-VOLUME_STEP)).1) (initState 0)).volume) ∧
    (({ initState 0 with volume := 4 } : SessionState).volume = MAX_VOLUME →
      adjustVolume none { initState 0 with volume := 4 } 5 VOLUME_STEP =
        ({ initState 0 with volume := 4 }, [])) ∧
    (({ initState 0 with volume := 0 } : SessionState).volume = MIN_VOLUME →
      adjustVolume none { initState 0 with volume := 0 } 5 (-VOLUME_STEP) =
        ({ initState 0 with volume := 0 }, [])) :=
  volume_boundary_behaviour none 5 [10, 20, 30] [10, 20] (initState 0)
    (initState 0) { initState 0 with volume := 4 } { initState 0 with volume := 0 }

/-! ### Claim C4: pause then resume is a no-op on position -/

/-- C4: for a playing session, pausing at `t₁` freezes the live position,
and resuming at `t₂` restores exactly that offset and starts the new decode
process at exactly that frozen offset (with the unchanged volume). -/
theorem pause_resume_noop (d : Option ℚ) (s : SessionState) (t₁ t₂ : ℚ)
    (hp : s.playing = true) :
    ((resumePlayback d (pausePlayback d s t₁).1 t₂).1).offset =
        getLivePosition d s t₁ ∧
      (resumePlayback d (pausePlayback d s t₁).1 t₂).2 =
        [ProcEvent.spawn (getLivePosition d s t₁) s.volume] := by
  have hpause : (pausePlayback d s t₁).1 =
      (stopCurrentProcess
        { s with offset := getLivePosition d s t₁, playing := false }).1 := by
    simp only [pausePlayback]
    rw [if_pos hp]
  have hoff : (pausePlayback d s t₁).1.offset = getLivePosition d s t₁ := by
    rw [hpause, stopCurrentProcess_offset]
  have hvol : (pausePlayback d s t₁).1.volume = s.volume := by
    rw [hpause, stopCurrentProcess_volume]
  have halive : (pausePlayback d s t₁).1.alive = false := by
    rw [hpause]
    exact stopCurrentProcess_alive _
  constructor
  · simp only [resumePlayback]
    rw [startPlayback_eq]
    show clampPosition d ((pausePlayback d s t₁).1.offset) = getLivePosition d s t₁
    rw [hoff, clampPosition_getLivePosition]
  · simp only [resumePlayback]
    rw [startPlayback_eq]
    show (if (pausePlayback d s t₁).1.alive = true then [ProcEvent.exit] else []) ++
        [ProcEvent.spawn (clampPosition d ((pausePlayback d s t₁).1.offset))
          ((pausePlayback d s t₁).1.volume)] = _
    rw [halive, hoff, hvol, clampPosition_getLivePosition]
    simp

/-- Concrete instance of `pause_resume_noop`: playing from offset 0 since
wall-clock 0 with duration 100, paused at 3000ms, resumed at 9000ms. -/
theorem pause_resume_noop_witness :
    ((resumePlayback (some 100)
        (pausePlayback (some 100)
          { initState 0 with playing := true, alive := true } 3000).1 9000).1).offset =
        getLivePosition (some 100)
          { initState 0 with playing := true, alive := true } 3000 ∧
      (resumePlayback (some 100)
          (pausePlayback (some 100)
            { initState 0 with playing := true, alive := true } 3000).1 9000).2 =
        [ProcEvent.spawn
          (getLivePosition (some 100)
            { initState 0 with playing := true, alive := true } 3000)
          ({ initState 0 with playing := true, alive := true } : SessionState).volume] :=
  pause_resume_noop (some 100) { initState 0 with playing := true, alive := true }
    3000 9000 rfl

/-! ### Claim C5: completion flag semantics -/

/-- `finalize` resolves the session promise with the requested flag. -/
theorem finalize_result {s : SessionState} (h : s.done = false) (completed : Bool) :
    (finalize s completed).1.result = some completed := by
  simp only [finalize]
  rw [if_neg (by simp [h])]

/-- An unexpected close of the decode process finalizes with
`completed = true`. -/
theorem handleProcessClose_result {s : SessionState} (he : s.expectingStop = false)
    (hd : s.done = false) :
    (handleProcessClose s).1.result = some true := by
  simp only [handleProcessClose]
  rw [if_neg (by simp [he])]
  exact finalize_result (s := { s with alive := false, playing := false }) hd true

/-- C5: in a running session, a decode-process exit without a pending
controller kill (`expectingStop` unset) resolves the session with
`completed = true`; any of the quit keys (`q`, `escape`, `enter`) or
`ctrl+c` resolves it with `completed = false`. -/
theorem completion_flag_semantics (d : Option ℚ) (s : SessionState) (now : ℚ)
    (k : Key) (hdone : s.done = false) :
    (s.alive = true → s.expectingStop = false →
      (step d s SessionEvent.processClose).1.result = some true) ∧
    (k = Key.q ∨ k = Key.escape ∨ k = Key.ret ∨ k = Key.ctrlC →
      (step d s (SessionEvent.key k now)).1.result = some false) := by
  constructor
  · intro halive hexp
    simp only [step]
    rw [if_neg (by simp [hdone]), if_pos halive]
    exact handleProcessClose_result hexp hdone
  · intro hk
    simp only [step]
    rw [if_neg (by simp [hdone])]
    rcases hk with h | h | h | h <;> subst h <;>
      simp only [onKeypress] <;> exact finalize_result hdone false

/-- Concrete instance of `completion_flag_semantics`: a live playing
session, closing naturally or quitting with `q`. -/
theorem completion_flag_semantics_witness :
    (({ initState 0 with playing := true, alive := true } : SessionState).alive = true →
      ({ initState 0 with playing := true, alive := true } : SessionState).expectingStop = false →
      (step none { initState 0 with playing := true, alive := true }
          SessionEvent.processClose).1.result = some true) ∧
    (Key.q = Key.q ∨ Key.q = Key.escape ∨ Key.q = Key.ret ∨ Key.q = Key.ctrlC →
      (step none { initState 0 with playing := true, alive := true }
          (SessionEvent.key Key.q 5)).1.result = some false) :=
  completion_flag_semantics none { initState 0 with playing := true, alive := true }
    5 Key.q rfl

/-! ### Claim C6: the duration probe never throws -/

/-- C6: the duration probe always resolves (to a number or to the unknown
value `none`), resolves `none` with exactly one user-facing warning in each
of the three failure cases — probing tool not installed (an error whose
message contains `ENOENT` or `not found`), any other execution error, and
non-numeric tool output — and resolves the parsed number with no warning on
numeric output. -/
theorem duration_probe_never_throws (o : ExecOutcome) :
    ((getAudioDuration o).duration = none ∨
      ∃ q, (getAudioDuration o).duration = some q) ∧
    (∀ msg, o = ExecOutcome.execError msg →
      (jsIncludes msg "ENOENT" || jsIncludes (jsToLower msg) "not found") = true →
      getAudioDuration o = ⟨none, [ffprobeMissingWarning]⟩) ∧
    (∀ msg, o = ExecOutcome.execError msg →
      (jsIncludes msg "ENOENT" || jsIncludes (jsToLower msg) "not found") = false →
      getAudioDuration o = ⟨none, [ffprobeErrorWarning]⟩) ∧
    (∀ out, o = ExecOutcome.success out → jsParseFloat (jsTrim out) = none →
      getAudioDuration o = ⟨none, [ffprobeFormatWarning]⟩) ∧
    (∀ out q, o = ExecOutcome.success out → jsParseFloat (jsTrim out) = some q →
      getAudioDuration o = ⟨some q, []⟩) := by
  refine ⟨?_, ?_, ?_, ?_, ?_⟩
  · cases h : (getAudioDuration o).duration with
    | none => exact Or.inl rfl
    | some q => exact Or.inr ⟨q, rfl⟩
  · intro msg ho hc
    subst ho
    simp only [getAudioDuration]
    rw [if_pos hc]
  · intro msg ho hc
    subst ho
    simp only [getAudioDuration]
    rw [if_neg (by simp [hc])]
  · intro out ho hp
    subst ho
    simp only [getAudioDuration, hp]
  · intro out q ho hp
    subst ho
    simp only [getAudioDuration, hp]

/-- Concrete instance of `duration_probe_never_throws`: the shell error for
a missing `ffprobe` binary. -/
theorem duration_probe_never_throws_witness :
    ((getAudioDuration (ExecOutcome.execError "spawn ffprobe ENOENT")).duration = none ∨
      ∃ q, (getAudioDuration
        (ExecOutcome.execError "spawn ffprobe ENOENT")).duration = some q) ∧
    (∀ msg, ExecOutcome.execError "spawn ffprobe ENOENT" = ExecOutcome.execError msg →
      (jsIncludes msg "ENOENT" || jsIncludes (jsToLower msg) "not found") = true →
      getAudioDuration (ExecOutcome.execError "spawn ffprobe ENOENT") =
        ⟨none, [ffprobeMissingWarning]⟩) ∧
    (∀ msg, ExecOutcome.execError "spawn ffprobe ENOENT" = ExecOutcome.execError msg →
      (jsIncludes msg "ENOENT" || jsIncludes (jsToLower msg) "not found") = false →
      getAudioDuration (ExecOutcome.execError "spawn ffprobe ENOENT") =
        ⟨none, [ffprobeErrorWarning]⟩) ∧
    (∀ out, ExecOutcome.execError "spawn ffprobe ENOENT" = ExecOutcome.success out →
      jsParseFloat (jsTrim out) = none →
      getAudioDuration (ExecOutcome.execError "spawn ffprobe ENOENT") =
        ⟨none, [ffprobeFormatWarning]⟩) ∧
    (∀ out q, ExecOutcome.execError "spawn ffprobe ENOENT" = ExecOutcome.success out →
      jsParseFloat (jsTrim out) = some q →
      getAudioDuration (ExecOutcome.execError "spawn ffprobe ENOENT") = ⟨some q, []⟩) :=
  duration_probe_never_throws (ExecOutcome.execError "spawn ffprobe ENOENT")

/-! ### Claim C7: the restart pattern of seek / resume / volume change

As stated, the claim fails on the code: while the session is paused, a seek
(and likewise a volume change) only updates the stored state and re-renders
— it spawns no decode process and leaves `startedAtWallClock` untouched.
The pattern does hold for every seek while playing, for every resume, and
for every effective volume change while playing. -/

/-- A paused session state (offset 10, never started, duration known). -/
def pausedSeekState : SessionState :=
  { initState 0 with offset := 10 }

/-- C7 counterexample: seeking right by 5 seconds in a paused session emits
no process event at all — in particular no spawn — and leaves `playing`
and `startedAtWallClock` unchanged, contradicting the claimed
teardown-then-spawn pattern for every seek. -/
theorem seek_pattern_counterexample :
    (seekBy (some 100) pausedSeekState 1000 5).2 = [] ∧
    (seekBy (some 100) pausedSeekState 1000 5).1.playing = false ∧
    (seekBy (some 100) pausedSeekState 1000 5).1.startedAt = 0 ∧
    ¬ ∃ pre st vol post,
        (seekBy (some 100) pausedSeekState 1000 5).2 =
          pre ++ ProcEvent.spawn st vol :: post := by
  have hseek : seekBy (some 100) pausedSeekState 1000 5 =
      ({ pausedSeekState with
          offset := clampPosition (some 100) (getLivePosition (some 100) pausedSeekState 1000 + 5) },
        []) := by
    simp only [seekBy]
    rw [if_neg (by simp [pausedSeekState, initState])]
  rw [hseek]
  refine ⟨rfl, rfl, rfl, ?_⟩
  rintro ⟨pre, st, vol, post, h⟩
  simp at h

/-- The live position does not depend on the stored volume. -/
theorem getLivePosition_set_volume (d : Option ℚ) (s : SessionState) (v now : ℚ) :
    getLivePosition d { s with volume := v } now = getLivePosition d s now := rfl

/-- C7 (amended): a seek while playing, a resume, and an effective volume
change while playing all follow the same pattern — tear down any live
decode process (its exit acknowledged before anything else), then spawn a
fresh decode process at the target offset with the current volume
multiplier, resetting `startedAtWallClock` to now, `offsetSeconds` to the
target and `playing` to true.  While paused, a seek (or an effective volume
change) only stores the new offset (volume) and spawns nothing; a volume
press whose clamped rounded level equals the current one changes nothing at
all. -/
theorem transport_restart_pattern (d : Option ℚ) (s : SessionState) (now delta : ℚ) :
    (s.playing = true →
      seekBy d s now delta =
        ({ s with
            offset := clampPosition d (getLivePosition d s now + delta),
            startedAt := now, playing := true, expectingStop := false, alive := true },
          (if s.alive then [ProcEvent.exit] else []) ++
            [ProcEvent.spawn (clampPosition d (getLivePosition d s now + delta)) s.volume])) ∧
    (resumePlayback d s now =
      ({ s with
          offset := clampPosition d s.offset,
          startedAt := now, playing := true, expectingStop := false, alive := true },
        (if s.alive then [ProcEvent.exit] else []) ++
          [ProcEvent.spawn (clampPosition d s.offset) s.volume])) ∧
    (s.playing = true →
      ∀ nv, nv = clampVolume ((jsRound ((s.volume + delta) * 100) : ℚ) / 100) →
        nv ≠ s.volume →
        adjustVolume d s now delta =
          ({ s with
              volume := nv, offset := getLivePosition d s now,
              startedAt := now, playing := true, expectingStop := false, alive := true },
            (if s.alive then [ProcEvent.exit] else []) ++
              [ProcEvent.spawn (getLivePosition d s now) nv])) ∧
    (s.playing = false →
      seekBy d s now delta =
        ({ s with offset := clampPosition d (getLivePosition d s now + delta) }, [])) ∧
    (s.playing = false →
      ∀ nv, nv = clampVolume ((jsRound ((s.volume + delta) * 100) : ℚ) / 100) →
        nv ≠ s.volume →
        adjustVolume d s now delta = ({ s with volume := nv }, [])) ∧
    (∀ nv, nv = clampVolume ((jsRound ((s.volume + delta) * 100) : ℚ) / 100) →
      nv = s.volume →
      adjustVolume d s now delta = (s, [])) := by
  refine ⟨?_, ?_, ?_, ?_, ?_, ?_⟩
  · intro hp
    simp only [seekBy]
    rw [if_pos hp, startPlayback_eq, clampPosition_idem]
  · simp only [resumePlayback]
    rw [startPlayback_eq]
  · intro hp nv hnv hne
    subst hnv
    simp only [adjustVolume]
    rw [if_neg hne, if_pos hp, startPlayback_eq, getLivePosition_set_volume,
      clampPosition_getLivePosition]
  · intro hp
    simp only [seekBy]
    rw [if_neg (by simp [hp])]
  · intro hp nv hnv hne
    subst hnv
    simp only [adjustVolume]
    rw [if_neg hne, if_neg (by simp [hp])]
  · intro nv hnv heq
    subst hnv
    simp only [adjustVolume]
    rw [if_pos heq]

/-- Concrete instance of `transport_restart_pattern`: a live playing
session at wall clock 2000, seek and volume deltas of `+5`. -/
theorem transport_restart_pattern_witness :
    (({ initState 0 with playing := true, alive := true } : SessionState).playing = true →
      seekBy none { initState 0 with playing := true, alive := true } 2000 5 =
        ({ { initState 0 with playing := true, alive := true } with
            offset := clampPosition none
              (getLivePosition none { initState 0 with playing := true, alive := true } 2000 + 5),
            startedAt := 2000, playing := true, expectingStop := false, alive := true },
          (if ({ initState 0 with playing := true, alive := true } : SessionState).alive
              then [ProcEvent.exit] else []) ++
            [ProcEvent.spawn
              (clampPosition none
                (getLivePosition none
                  { initState 0 with playing := true, alive := true } 2000 + 5))
              ({ initState 0 with playing := true, alive := true } : SessionState).volume])) ∧
    (resumePlayback none { initState 0 with playing := true, alive := true } 2000 =
      ({ { initState 0 with playing := true, alive := true } with
          offset := clampPosition none
            ({ initState 0 with playing := true, alive := true } : SessionState).offset,
          startedAt := 2000, playing := true, expectingStop := false, alive := true },
        (if ({ initState 0 with playing := true, alive := true } : SessionState).alive
            then [ProcEvent.exit] else []) ++
          [ProcEvent.spawn
            (clampPosition none
              ({ initState 0 with playing := true, alive := true } : SessionState).offset)
            ({ initState 0 with playing := true, alive := true } : SessionState).volume])) ∧
    (({ initState 0 with playing := true, alive := true } : SessionState).playing = true →
      ∀ nv, nv = clampVolume ((jsRound
          ((({ initState 0 with playing := true, alive := true } : SessionState).volume + 5) *
            100) : ℚ) / 100) →
        nv ≠ ({ initState 0 with playing := true, alive := true } : SessionState).volume →
        adjustVolume none { initState 0 with playing := true, alive := true } 2000 5 =
          ({ { initState 0 with playing := true, alive := true } with
              volume := nv,
              offset := getLivePosition none
                { initState 0 with playing := true, alive := true } 2000,
              startedAt := 2000, playing := true, expectingStop := false, alive := true },
            (if ({ initState 0 with playing := true, alive := true } : SessionState).alive
                then [ProcEvent.exit] else []) ++
              [ProcEvent.spawn
                (getLivePosition none
                  { initState 0 with playing := true, alive := true } 2000) nv])) ∧
    (({ initState 0 with playing := true, alive := true } : SessionState).playing = false →
      seekBy none { initState 0 with playing := true, alive := true } 2000 5 =
        ({ { initState 0 with playing := true, alive := true } with
            offset := clampPosition none
              (getLivePosition none
                { initState 0 with playing := true, alive := true } 2000 + 5) },
          [])) ∧
    (({ initState 0 with playing := true, alive := true } : SessionState).playing = false →
      ∀ nv, nv = clampVolume ((jsRound
          ((({ initState 0 with playing := true, alive := true } : SessionState).volume + 5) *
            100) : ℚ) / 100) →
        nv ≠ ({ initState 0 with playing := true, alive := true } : SessionState).volume →
        adjustVolume none { initState 0 with playing := true, alive := true } 2000 5 =
          ({ { initState 0 with playing := true, alive := true } with volume := nv }, [])) ∧
    (∀ nv, nv = clampVolume ((jsRound
        ((({ initState 0 with playing := true, alive := true } : SessionState).volume + 5) *
          100) : ℚ) / 100) →
      nv = ({ initState 0 with playing := true, alive := true } : SessionState).volume →
      adjustVolume none { initState 0 with playing := true, alive := true } 2000 5 =
        ({ initState 0 with playing := true, alive := true }, [])) :=
  transport_restart_pattern none { initState 0 with playing := true, alive := true } 2000 5

/-! ### Claim C8: the basic adapter under an interrupt -/

/-- C8: a basic-adapter playback hit by an operating-system interrupt
mid-playback force-kills the audio process and resolves the call with
`completed = false` once the player callback reports the killed process —
without rejecting; a natural completion (callback without error) resolves
with `completed = true`. -/
theorem basic_adapter_interrupt (debugMode : Bool) (e : JsError) :
    (runBasic debugMode
        [BasicEvent.sigint, BasicEvent.playerCallback (some e)]).settled =
      some (BasicOutcome.resolved false) ∧
    (runBasic debugMode
        [BasicEvent.sigint, BasicEvent.playerCallback (some e)]).killSent = true ∧
    (runBasic debugMode [BasicEvent.playerCallback none]).settled =
      some (BasicOutcome.resolved true) :=
  ⟨rfl, rfl, rfl⟩

/-! ### Claim C9: non-positive probed durations behave as unknown -/

/-- C9: a probed duration `q ≤ 0` is treated exactly like an unknown
duration: the progress bar renders all-empty, the total-time label is the
`"??:??"` placeholder, position clamping only applies the lower bound 0
(identical to the unknown-duration clamp), and the whole rendered status
line coincides with the unknown-duration rendering. -/
theorem nonpositive_duration_like_unknown (q : ℚ) (hq : q ≤ 0)
    (s : SessionState) (now x : ℚ) :
    buildProgressBar x (some q) = repeatChar '-' PROGRESS_BAR_WIDTH ∧
    durationLabel (some q) = "??:??" ∧
    clampPosition (some q) x = clampPosition none x ∧
    renderStatusLine (some q) s now = renderStatusLine none s now := by
  have hbar : ∀ y : ℚ, buildProgressBar y (some q) = repeatChar '-' PROGRESS_BAR_WIDTH := by
    intro y
    simp only [buildProgressBar]
    rw [if_pos hq]
  have hlabel : durationLabel (some q) = "??:??" := by
    rcases lt_or_eq_of_le hq with hlt | heq
    · simp only [durationLabel, jsTruthy]
      rw [if_pos (by simp [ne_of_lt hlt]), formatTime]
      rw [if_pos hlt]
    · simp [durationLabel, jsTruthy, ← heq]
  have hclamp : ∀ y : ℚ, clampPosition (some q) y = clampPosition none y := by
    intro y
    simp only [clampPosition]
    rw [if_pos hq]
  have hlive : getLivePosition (some q) s now = getLivePosition none s now := by
    simp only [getLivePosition]
    by_cases hp : s.playing = true
    · rw [if_pos hp, if_pos hp, hclamp]
    · rw [if_neg hp, if_neg hp, hclamp]
  refine ⟨hbar x, hlabel, hclamp x, ?_⟩
  simp only [renderStatusLine]
  rw [hlive, hlabel, hbar]
  simp [buildProgressBar, durationLabel, jsTruthy]

/-- Concrete instance of `nonpositive_duration_like_unknown` at duration
`-1` in a fresh session. -/
theorem nonpositive_duration_like_unknown_witness :
    buildProgressBar 7 (some (-1)) = repeatChar '-' PROGRESS_BAR_WIDTH ∧
    durationLabel (some (-1)) = "??:??" ∧
    clampPosition (some (-1)) 7 = clampPosition none 7 ∧
    renderStatusLine (some (-1)) (initState 0) 5 = renderStatusLine none (initState 0) 5 :=
  nonpositive_duration_like_unknown (-1) (by norm_num) (initState 0) 5 7

/-! ### Claim C10: the process-wide one-time hint flag -/

/-- With the flag already set, a session shows no hint. -/
theorem playAudioFileNotices_shown (env : PlayEnv) :
    playAudioFileNotices env true = (true, []) := by
  unfold playAudioFileNotices notifyInteractiveLimitation
  split
  · split <;> rfl
  · split <;> rfl

/-- With the flag already set, no later session ever shows a hint. -/
theorem runNoticeSessions_shown (envs : List PlayEnv) :
    runNoticeSessions true envs = (true, []) := by
  induction envs with
  | nil => rfl
  | cons env rest ih =>
    simp only [runNoticeSessions, playAudioFileNotices_shown, ih]
    rfl

/-- One fresh session either shows nothing (flag stays unset) or shows one
hint (flag becomes set). -/
theorem playAudioFileNotices_fresh_cases (env : PlayEnv) :
    playAudioFileNotices env false = (false, []) ∨
      ∃ m, playAudioFileNotices env false = (true, [m]) := by
  unfold playAudioFileNotices notifyInteractiveLimitation
  split
  · split
    · exact Or.inr ⟨_, rfl⟩
    · exact Or.inl rfl
  · split
    · exact Or.inr ⟨_, rfl⟩
    · exact Or.inr ⟨_, rfl⟩

/-- If a fresh run showed any hint, its final flag is set. -/
theorem runNoticeSessions_flag_of_hints (envs : List PlayEnv) :
    (runNoticeSessions false envs).2 ≠ [] → (runNoticeSessions false envs).1 = true := by
  induction envs with
  | nil => intro h; exact absurd rfl h
  | cons env rest ih =>
    intro h
    simp only [runNoticeSessions] at h ⊢
    rcases playAudioFileNotices_fresh_cases env with hc | ⟨m, hc⟩
    · rw [hc] at h ⊢
      exact ih (by simpa using h)
    · rw [hc, runNoticeSessions_shown]

/-- C10: all three degradation hints share the one process-wide flag:
starting from a fresh process, any sequence of playback sessions shows at
most one hint in total, and once any session has shown a hint, every later
session (with any environment) shows none. -/
theorem degradation_hint_at_most_once (envs pre post : List PlayEnv) :
    (runNoticeSessions false envs).2.length ≤ 1 ∧
    ((runNoticeSessions false pre).2 ≠ [] →
      (runNoticeSessions (runNoticeSessions false pre).1 post).2 = []) := by
  constructor
  · induction envs with
    | nil => simp [runNoticeSessions]
    | cons env rest ih =>
      simp only [runNoticeSessions]
      rcases playAudioFileNotices_fresh_cases env with hc | ⟨m, hc⟩
      · rw [hc]
        simpa using ih
      · rw [hc, runNoticeSessions_shown]
        simp
  · intro h
    rw [runNoticeSessions_flag_of_hints pre h, runNoticeSessions_shown]

/-- Concrete instance of `degradation_hint_at_most_once`: two no-TTY
sessions followed by a no-decoder session show exactly one hint; after the
first hinting session nothing further is shown. -/
theorem degradation_hint_at_most_once_witness :
    (runNoticeSessions false
        [⟨false, true, false⟩, ⟨false, true, false⟩, ⟨true, false, false⟩]).2.length ≤ 1 ∧
    ((runNoticeSessions false [⟨false, true, false⟩]).2 ≠ [] →
      (runNoticeSessions (runNoticeSessions false [⟨false, true, false⟩]).1
          [⟨true, false, false⟩, ⟨true, true, true⟩]).2 = []) :=
  degradation_hint_at_most_once
    [⟨false, true, false⟩, ⟨false, true, false⟩, ⟨true, false, false⟩]
    [⟨false, true, false⟩] [⟨true, false, false⟩, ⟨true, true, true⟩]
